import Mathlib

/-!
# Verification of the verisnap session-orchestration core

Shallow embedding of the Python source under `backend/app/`:

* `RateLimiter` (`security/rate_limiting.py`): per-identifier sliding-window
  rate limiting with temporary bans.
* `ScrapeRateLimiter` (`security/rate_limiting.py`) together with the
  `/scraping/start` route (`api/routes.py`): per-target concurrency gate.
* `HealthcareProvider.calculate_confidence_score` (`scraper/orchestrator.py`).
* `JamedaScraper.search_providers`, `DoctolibScraper.search_providers` and
  `ScrapingOrchestrator.run_scraping_session` (`scraper/orchestrator.py`),
  with database and page effects reified as an event trace.
* `ProxyRotator.get_next_proxy` / `check_all_proxies_health`
  (`proxy/manager.py`).

Wall-clock timestamps (`time.time()` / `datetime.now()` values) are modelled
by an arbitrary `LinearOrderedCommRing`; theorems therefore cover `ℚ` (an
exact superset of the float timestamps the code produces), while concrete
counterexamples and witnesses instantiate the time type at `ℤ`, where the
kernel can evaluate.
-/

namespace Verisnap

variable {Time : Type} [LinearOrderedCommRing Time]

/-! ## Rate limiter (`security/rate_limiting.py`, class `RateLimiter`)

We model the `identifier_type == "ip"` path of `check_rate_limit` for a
single identifier: the state is that identifier's timestamp deque
(`self.requests[identifier]`, oldest first) together with its entry in
`self.banned_ips` (`none` when absent).  Logging calls are omitted; an
`HTTPException` raise is reflected in the call's `Outcome`. -/

/-- `RateLimiter.ban_duration` (minutes), hard-coded to `60` in `__init__`. -/
def banDurationMinutes : ℕ := 60

/-- The ban duration as a wall-clock length in seconds, as compared by
`_is_banned` (`datetime.now() - ban_time < timedelta(minutes=self.ban_duration)`). -/
def banDurationSeconds : Time := ((banDurationMinutes : ℕ) : Time) * 60

/-- Per-identifier `RateLimiter` state: the timestamp queue and the ban
entry (`none` when the identifier is not in `banned_ips`). -/
structure RLState (Time : Type) where
  queue : List Time
  banSince : Option Time
  deriving DecidableEq

/-- The state of a fresh `RateLimiter` for any identifier: empty deque
(`defaultdict(deque)`), no ban entry. -/
def RLState.init {Time : Type} : RLState Time := ⟨[], none⟩

/-- `RateLimiter._clean_old_requests`: pop entries from the front of the
deque while `current_time - request_queue[0] > window_size`. -/
def cleanOldRequests (now window : Time) : List Time → List Time
  | [] => []
  | t :: ts => if now - t > window then cleanOldRequests now window ts else t :: ts

/-- Outcome of one `check_rate_limit` call: the call returns `True`
(`allowed`), raises 429 after the queue-length comparison (`rateLimited`),
or raises 429 up front because the identifier is banned (`bannedReject`). -/
inductive Outcome where
  | allowed
  | rateLimited
  | bannedReject
  deriving DecidableEq

/-- The body of `check_rate_limit` after the ban gate: clean the queue,
compare its length to `max_requests`; on `len(request_queue) >= max_requests`
raise (adding a ban entry first when `len(request_queue) > max_requests * 2`),
otherwise append the current timestamp and allow. -/
def checkCore (maxRequests : ℕ) (window : Time) (s : RLState Time) (now : Time) :
    Outcome × RLState Time :=
  let q := cleanOldRequests now window s.queue
  if maxRequests ≤ q.length then
    if maxRequests * 2 < q.length then
      (Outcome.rateLimited, ⟨q, some now⟩)
    else
      (Outcome.rateLimited, ⟨q, s.banSince⟩)
  else
    (Outcome.allowed, ⟨q ++ [now], s.banSince⟩)

/-- One `check_rate_limit` call for an ip identifier: first `_is_banned`
(which rejects while the ban is active without touching the queue, and
deletes an expired ban entry), then `checkCore`. -/
def checkRateLimit (maxRequests : ℕ) (window : Time) (s : RLState Time) (now : Time) :
    Outcome × RLState Time :=
  match s.banSince with
  | some b =>
      if now - b < banDurationSeconds then
        (Outcome.bannedReject, s)
      else
        checkCore maxRequests window ⟨s.queue, none⟩ now
  | none => checkCore maxRequests window s now

/-- Run a sequence of `check_rate_limit` calls at the given timestamps,
returning each call's timestamp and outcome together with the final state. -/
def runChecks (maxRequests : ℕ) (window : Time) (s : RLState Time) :
    List Time → List (Time × Outcome) × RLState Time
  | [] => ([], s)
  | t :: ts =>
      let r := checkRateLimit maxRequests window s t
      let rest := runChecks maxRequests window r.2 ts
      ((t, r.1) :: rest.1, rest.2)

/-- The timestamps of the allowed (non-raising) calls of a run. -/
def allowedTimes (maxRequests : ℕ) (window : Time) (s : RLState Time)
    (ts : List Time) : List Time :=
  ((runChecks maxRequests window s ts).1.filter
    (fun p => p.2 = Outcome.allowed)).map Prod.fst

/-- 250 requests from one identifier, one second apart (hence all inside a
single 3600-second window), with integer timestamps. -/
def burst250 : List ℤ := (List.range 250).map (fun n => (n : ℤ))

/-! ## Per-target concurrency gate
(`security/rate_limiting.py`, class `ScrapeRateLimiter`, used by
`start_scraping` and `run_scraping_background` in `api/routes.py`) -/

/-- `settings.max_concurrent_scrapes` default (`config/settings.py`). -/
def maxConcurrentScrapes : ℕ := 3

/-- `ScrapeRateLimiter` state: `self.active_scrapes` is a
`defaultdict(int)`, modelled as a total map that is `0` off-support. -/
structure GateState where
  activeScrapes : String → ℕ

/-- Fresh `ScrapeRateLimiter`: all counters zero. -/
def GateState.init : GateState := ⟨fun _ => 0⟩

/-- `ScrapeRateLimiter.check_scraping_limit` raises 429 exactly when
`self.active_scrapes[site] >= max_concurrent`; this predicate is true when
the call allows the request. -/
def checkScrapingLimit (maxConcurrent : ℕ) (s : GateState) (site : String) : Bool :=
  decide (s.activeScrapes site < maxConcurrent)

/-- `ScrapeRateLimiter.start_scraping`: increment the site's counter. -/
def startScrapingCounter (s : GateState) (site : String) : GateState :=
  ⟨fun x => if x = site then s.activeScrapes x + 1 else s.activeScrapes x⟩

/-- `ScrapeRateLimiter.finish_scraping`: decrement the site's counter,
only when it is positive (floored at zero). -/
def finishScrapingCounter (s : GateState) (site : String) : GateState :=
  ⟨fun x =>
    if x = site then
      if 0 < s.activeScrapes x then s.activeScrapes x - 1 else s.activeScrapes x
    else s.activeScrapes x⟩

/-- External stimuli for the gate: a `POST /scraping/start` request for a
target (with the fate of `ScrapingRepository.create_session` as an input),
or the `finally` block of `run_scraping_background` finishing a scrape. -/
inductive GateEvent where
  | request (site : String) (createOk : Bool)
  | finish (site : String)

/-- What the route did with a request. -/
inductive RouteOutcome where
  | rejectedTooMany
  | createFailed
  | admitted
  | finished
  deriving DecidableEq

/-- One step of the route/background-task protocol around the gate, in the
order of `start_scraping` (`api/routes.py`): `check_scraping_limit` first
(429 before any `Session` entity is created), then
`ScrapingRepository.create_session` (a failure raises 500 and skips the
increment), then `ScrapeRateLimiter.start_scraping`.  `finish` events come
from the background task's `finally` block.  The third component records
whether a `Session` entity was created. -/
def gateStep (maxConcurrent : ℕ) (s : GateState) :
    GateEvent → GateState × RouteOutcome × Bool
  | GateEvent.request site createOk =>
      if checkScrapingLimit maxConcurrent s site then
        if createOk then
          (startScrapingCounter s site, RouteOutcome.admitted, true)
        else
          (s, RouteOutcome.createFailed, false)
      else
        (s, RouteOutcome.rejectedTooMany, false)
  | GateEvent.finish site => (finishScrapingCounter s site, RouteOutcome.finished, false)

/-- Run a sequence of gate events from a state. -/
def runGate (maxConcurrent : ℕ) (s : GateState) : List GateEvent → GateState
  | [] => s
  | e :: es => runGate maxConcurrent (gateStep maxConcurrent s e).1 es

/-! ## Extracted records and the confidence score
(`scraper/orchestrator.py`, dataclass `HealthcareProvider`) -/

/-- The `HealthcareProvider` dataclass (the free-form `additional_info`
dict is omitted: it never feeds the confidence score or the claims).
`rating` is a float in the source, modelled as a rational. -/
structure HealthcareProvider where
  name : Option String := none
  specialty : Option String := none
  address : Option String := none
  city : Option String := none
  postalCode : Option String := none
  phone : Option String := none
  email : Option String := none
  website : Option String := none
  rating : Option ℚ := none
  reviewCount : Option ℕ := none
  sourceUrl : Option String := none
  deriving DecidableEq

/-- Python truthiness of an optional string (`if self.website:`):
present and non-empty. -/
def truthyStr : Option String → Bool
  | none => false
  | some s => !s.isEmpty

/-- The per-field test of `calculate_confidence_score`:
`field and field.strip()` — present, non-empty, and with the stripped
string non-empty.  `strip()` removes leading/trailing whitespace, so its
result is truthy exactly when the string contains a non-whitespace
character, which is how it is modelled here. -/
def filledStr : Option String → Bool
  | none => false
  | some s => !s.isEmpty && s.data.any (fun c => !c.isWhitespace)

/-- `HealthcareProvider.calculate_confidence_score`: base score
`(filled_fields / 4) * 70` over name/address/phone/email, `+10` when a
rating is present (`is not None`), `+10` for a truthy website, `+10` for a
truthy specialty, capped by `min(score, 100.0)`.  Float arithmetic is
modelled exactly in `ℚ` (all reachable values are dyadic, hence exact in
Python floats as well). -/
def calculateConfidenceScore (p : HealthcareProvider) : ℚ :=
  let fields := [p.name, p.address, p.phone, p.email]
  let filledFields := (fields.filter (fun f => filledStr f)).length
  let base := ((filledFields : ℚ) / ((fields.length : ℕ) : ℚ)) * 70
  let withRating := base + (if p.rating.isSome then 10 else 0)
  let withWebsite := withRating + (if truthyStr p.website then 10 else 0)
  let withSpecialty := withWebsite + (if truthyStr p.specialty then 10 else 0)
  min withSpecialty 100

/-! ## Session orchestration
(`scraper/orchestrator.py`: the two site adapters and
`ScrapingOrchestrator.run_scraping_session`; `database/operations.py`:
`ScrapingRepository.update_session_status` / `save_scraped_data`)

Effects are reified as an event trace: `statusUpdate` for each
`update_session_status` call, `saveRecord` for each `save_scraped_data`
call, and `processPage` for each iteration of an adapter's page loop.
The confidence score attached to saved data is `calculateConfidenceScore`
of the saved provider and is therefore left out of the event payload;
error-log strings are likewise abstracted away. -/

/-- `ScrapingSession.status` values (`api/schemas.py`, `StatusEnum`). -/
inductive Status where
  | pending
  | running
  | completed
  | failed
  deriving DecidableEq

/-- An observable effect of a session run. -/
inductive Event where
  | statusUpdate (st : Status) (pagesScraped totalRecords : Option ℕ)
  | saveRecord (p : HealthcareProvider)
  | processPage (pageNum : ℕ)
  deriving DecidableEq

/-- What one iteration of an adapter's page loop sees: an exception
(`pageError`, caught per page), or a parsed page whose provider cards each
extracted to `some` provider or `none` (the extraction helpers swallow
their own exceptions and return `None`). -/
inductive PageResult where
  | pageError
  | pageOk (cards : List (Option HealthcareProvider))
  deriving DecidableEq

/-- Adapter counters (`self.stats`): pages scraped, total records, errors. -/
structure AdapterStats where
  pagesScraped : ℕ
  totalRecords : ℕ
  errors : ℕ
  deriving DecidableEq

/-- The card filter shared by both adapters:
`if provider and provider.name: providers.append(provider)`. -/
def extractCards (cards : List (Option HealthcareProvider)) :
    List HealthcareProvider :=
  (cards.filterMap id).filter (fun p => truthyStr p.name)

/-- The page loop of `JamedaScraper.search_providers`
(`for page_num in range(1, max_pages + 1)`): a page error increments the
error counter and continues; an empty card list breaks; otherwise the
extracted providers are appended and `pages_scraped` is incremented.
Returns the page events, the providers in emission order, the number of
scraped pages and the error count. -/
def jamedaGo (pages : ℕ → PageResult) :
    ℕ → ℕ → List Event × List HealthcareProvider × ℕ × ℕ
  | _, 0 => ([], [], 0, 0)
  | n, fuel + 1 =>
      match pages n with
      | PageResult.pageError =>
          let r := jamedaGo pages (n + 1) fuel
          (Event.processPage n :: r.1, r.2.1, r.2.2.1, r.2.2.2 + 1)
      | PageResult.pageOk cards =>
          if cards.isEmpty then
            ([Event.processPage n], [], 0, 0)
          else
            let r := jamedaGo pages (n + 1) fuel
            (Event.processPage n :: r.1, extractCards cards ++ r.2.1,
              r.2.2.1 + 1, r.2.2.2)

/-- `JamedaScraper.search_providers`: run the page loop from page 1 and set
`stats["total_records"] = len(providers)` afterwards. -/
def jamedaSearch (pages : ℕ → PageResult) (maxPages : ℕ) :
    List Event × List HealthcareProvider × AdapterStats :=
  let r := jamedaGo pages 1 maxPages
  (r.1, r.2.1, ⟨r.2.2.1, r.2.1.length, r.2.2.2⟩)

/-- The page loop of `DoctolibScraper.search_providers`: a page error
increments the error counter and continues; an empty card list breaks;
otherwise providers are appended, `pages_scraped` is incremented, and the
loop continues only when a next-page button exists and its click succeeds
(`hasNext`), breaking otherwise. -/
def doctolibGo (pages : ℕ → PageResult) (hasNext : ℕ → Bool) :
    ℕ → ℕ → List Event × List HealthcareProvider × ℕ × ℕ
  | _, 0 => ([], [], 0, 0)
  | n, fuel + 1 =>
      match pages n with
      | PageResult.pageError =>
          let r := doctolibGo pages hasNext (n + 1) fuel
          (Event.processPage n :: r.1, r.2.1, r.2.2.1, r.2.2.2 + 1)
      | PageResult.pageOk cards =>
          if cards.isEmpty then
            ([Event.processPage n], [], 0, 0)
          else if hasNext n then
            let r := doctolibGo pages hasNext (n + 1) fuel
            (Event.processPage n :: r.1, extractCards cards ++ r.2.1,
              r.2.2.1 + 1, r.2.2.2)
          else
            ([Event.processPage n], extractCards cards, 1, 0)

/-- `DoctolibScraper.search_providers`: the initial `page.goto` on the
search URL is outside the per-page `try` — its failure hits the outer
handler, yielding no providers and one error; otherwise run the page loop
from page 1.  `stats["total_records"]` is set to the provider count. -/
def doctolibSearch (gotoOk : Bool) (pages : ℕ → PageResult)
    (hasNext : ℕ → Bool) (maxPages : ℕ) :
    List Event × List HealthcareProvider × AdapterStats :=
  if gotoOk then
    let r := doctolibGo pages hasNext 1 maxPages
    (r.1, r.2.1, ⟨r.2.2.1, r.2.1.length, r.2.2.2⟩)
  else
    ([], [], ⟨0, 0, 1⟩)

/-- The environment of one `run_scraping_session` call: the target and
`max_pages` from the request, whether `scraper.setup` succeeds, whether
`get_session_by_id` finds the session row, which `save_scraped_data` calls
succeed (indexed by save order), and the adapter's page-level inputs. -/
structure SessionEnv where
  targetSite : String
  maxPages : ℕ
  setupOk : Bool
  sessionFound : Bool
  saveOks : ℕ → Bool
  jamedaPages : ℕ → PageResult
  doctoGotoOk : Bool
  doctoPages : ℕ → PageResult
  doctoHasNext : ℕ → Bool

/-- The sites in `ScrapingOrchestrator.__init__`'s `self.scrapers` table. -/
def scraperSites : List String := ["jameda.de", "doctolib.de"]

/-- `ScrapingRequest.validate_target_site` (`api/schemas.py`): the
request-level allow-list. -/
def validateTargetSite (site : String) : Bool :=
  site ∈ ["jameda.de", "doctolib.de", "arztauskunft.de", "deutsche-aerzte.info"]

/-- Adapter dispatch (`self.scrapers[target_site]` followed by
`search_providers`).  Only reached for sites in `scraperSites`. -/
def runAdapter (env : SessionEnv) :
    List Event × List HealthcareProvider × AdapterStats :=
  if env.targetSite = "jameda.de" then
    jamedaSearch env.jamedaPages env.maxPages
  else
    doctolibSearch env.doctoGotoOk env.doctoPages env.doctoHasNext env.maxPages

/-- The persistence loop of `run_scraping_session`: each provider is saved
in order by `save_scraped_data`; a failing save raises out of the loop.
Returns the save events, the final `saved_count`, and whether the loop
completed. -/
def saveLoop (saveOks : ℕ → Bool) :
    List HealthcareProvider → ℕ → List Event × ℕ × Bool
  | [], _ => ([], 0, true)
  | p :: ps, k =>
      if saveOks k then
        let r := saveLoop saveOks ps (k + 1)
        (Event.saveRecord p :: r.1, r.2.1 + 1, r.2.2)
      else
        ([], 0, false)

/-- The outcome dict of `run_scraping_session` (the claim-relevant keys;
`success_rate` and `duration` are derived values left unmodelled). -/
structure RunResult where
  success : Bool
  totalRecords : ℕ
  pagesScraped : ℕ
  errors : ℕ
  deriving DecidableEq

/-- `ScrapingOrchestrator.run_scraping_session`: an unsupported target
returns a failure dict before any database call; a `setup` failure hits the
exception handler, which marks the session `failed` (with the adapter's
zero-initialised stats); otherwise the session is marked `running`, the
adapter is drained, and — when `get_session_by_id` finds the row — every
provider is saved and the session is marked `completed` with
`total_records = saved_count`, a failing save diverting to the `failed`
update with the adapter's stats.  When the row is missing, the save block
and the final update are silently skipped. -/
def runScrapingSession (env : SessionEnv) : RunResult × List Event :=
  if env.targetSite ∈ scraperSites then
    if env.setupOk then
      let a := runAdapter env
      let runningEv := Event.statusUpdate Status.running (some 0) (some 0)
      if env.sessionFound then
        let sv := saveLoop env.saveOks a.2.1 0
        if sv.2.2 then
          (⟨true, sv.2.1, a.2.2.pagesScraped, a.2.2.errors⟩,
            runningEv :: a.1 ++ sv.1 ++
              [Event.statusUpdate Status.completed
                (some a.2.2.pagesScraped) (some sv.2.1)])
        else
          (⟨false, 0, 0, 0⟩,
            runningEv :: a.1 ++ sv.1 ++
              [Event.statusUpdate Status.failed
                (some a.2.2.pagesScraped) (some a.2.2.totalRecords)])
      else
        (⟨true, 0, a.2.2.pagesScraped, a.2.2.errors⟩, runningEv :: a.1)
    else
      (⟨false, 0, 0, 0⟩, [Event.statusUpdate Status.failed (some 0) (some 0)])
  else
    (⟨false, 0, 0, 0⟩, [])

/-- The sequence of `update_session_status` statuses of a trace. -/
def statusSeq (events : List Event) : List Status :=
  events.filterMap fun e =>
    match e with
    | Event.statusUpdate st _ _ => some st
    | _ => none

/-- Is an event a `save_scraped_data` call? -/
def isSaveEvent : Event → Bool
  | Event.saveRecord _ => true
  | _ => false

/-- Is an event a page-loop iteration? -/
def isPageEvent : Event → Bool
  | Event.processPage _ => true
  | _ => false

/-- The providers persisted by a trace, in save order. -/
def savedRecords (events : List Event) : List HealthcareProvider :=
  events.filterMap fun e =>
    match e with
    | Event.saveRecord p => some p
    | _ => none

/-! ## Proxy pool (`proxy/manager.py`, class `ProxyRotator`) -/

/-- The static part of a `ProxyConfig`. -/
structure ProxyConfig where
  host : String
  port : ℕ
  username : Option String := none
  password : Option String := none
  proxyType : String := "http"
  country : Option String := none
  deriving DecidableEq

/-- A pool entry: the config plus the attributes that
`check_all_proxies_health` sets dynamically (`setattr` style — absent
until the first health check, modelled with an outer `Option`). -/
structure ProxyEntry where
  config : ProxyConfig
  isHealthy : Option Bool := none
  responseTime : Option (Option ℚ) := none
  lastError : Option (Option String) := none
  deriving DecidableEq

/-- One `check_proxy_health` result (the claim-relevant keys of the dict). -/
structure HealthResult where
  isHealthy : Bool
  responseTime : Option ℚ
  error : Option String

/-- `ProxyRotator` state: the proxy list, the round-robin cursor and the
last health-check timestamp (`0` at construction). -/
structure RotState (Time : Type) where
  proxies : List ProxyEntry
  currentIndex : ℕ
  lastHealthCheck : Time

/-- The currently healthy subset:
`[p for p in self.proxies if hasattr(p, 'is_healthy') and p.is_healthy]`. -/
def healthyProxies (l : List ProxyEntry) : List ProxyEntry :=
  l.filter (fun p => p.isHealthy = some true)

/-- Write the health-check results onto the proxy list in order. -/
def applyHealthResults (results : ℕ → HealthResult) :
    ℕ → List ProxyEntry → List ProxyEntry
  | _, [] => []
  | i, p :: ps =>
      { p with
        isHealthy := some (results i).isHealthy,
        responseTime := some (results i).responseTime,
        lastError := some (results i).error } ::
        applyHealthResults results (i + 1) ps

/-- `ProxyRotator.check_all_proxies_health`: returns immediately on an
empty list (leaving `last_health_check` untouched); otherwise awaits all
probes, updates every entry's health attributes, and finally sets
`self.last_health_check = time.time()` (`now`). -/
def checkAllProxiesHealth (results : ℕ → HealthResult) (now : Time)
    (s : RotState Time) : RotState Time :=
  if s.proxies.isEmpty then s
  else
    { proxies := applyHealthResults results 0 s.proxies,
      currentIndex := s.currentIndex,
      lastHealthCheck := now }

/-- `ProxyRotator.get_next_proxy`: `None` on an empty pool; when more than
`health_check_interval` has elapsed since the last check, `await` a full
`check_all_proxies_health` first; then filter the healthy subset, reset the
cursor to zero when it fell off the end, return the proxy under the cursor
and advance it.  (The index is in range, so `getD`'s default is never
used.) -/
def getNextProxy (interval : Time) (results : ℕ → HealthResult)
    (s : RotState Time) (now : Time) : Option ProxyEntry × RotState Time :=
  if s.proxies.isEmpty then (none, s)
  else
    let s₁ :=
      if now - s.lastHealthCheck > interval then
        checkAllProxiesHealth results now s
      else s
    match healthyProxies s₁.proxies with
    | [] => (none, s₁)
    | h :: t =>
        let healthy := h :: t
        let idx :=
          if healthy.length ≤ s₁.currentIndex then 0 else s₁.currentIndex
        (some (healthy.getD idx h),
          { s₁ with currentIndex := idx + 1 })

/-- A sequence of `get_next_proxy` calls at the given timestamps. -/
def acquireSeq (interval : Time) (results : ℕ → HealthResult)
    (s : RotState Time) : List Time → List (Option ProxyEntry) × RotState Time
  | [] => ([], s)
  | t :: ts =>
      let r := getNextProxy interval results s t
      let rest := acquireSeq interval results r.2 ts
      (r.1 :: rest.1, rest.2)

/-- The cursor actually used by `get_next_proxy` after the
shrink-invalidation reset. -/
def rotateIndex (n c : ℕ) : ℕ := if n ≤ c then 0 else c

/-! ## Concrete scenario inputs for counterexamples and witnesses -/

/-- A provider extracted on page 1 of the two-page Jameda scenario. -/
def recPage1 : HealthcareProvider :=
  { name := some "Dr. Anna Alt", address := some "Altstr. 1, 10115 Berlin" }

/-- A provider extracted on page 2 of the two-page Jameda scenario. -/
def recPage2 : HealthcareProvider :=
  { name := some "Dr. Bernd Neu", address := some "Neustr. 2, 10115 Berlin" }

/-- A jameda.de session whose adapter finds one record on each of two
pages; setup, session lookup and every save succeed. -/
def envTwoPages : SessionEnv :=
  { targetSite := "jameda.de", maxPages := 2, setupOk := true,
    sessionFound := true, saveOks := fun _ => true,
    jamedaPages := fun n =>
      if n = 1 then PageResult.pageOk [some recPage1]
      else if n = 2 then PageResult.pageOk [some recPage2]
      else PageResult.pageOk [],
    doctoGotoOk := true, doctoPages := fun _ => PageResult.pageOk [],
    doctoHasNext := fun _ => false }

/-- A session whose `scraper.setup` call fails. -/
def envSetupFail : SessionEnv :=
  { targetSite := "jameda.de", maxPages := 2, setupOk := false,
    sessionFound := true, saveOks := fun _ => true,
    jamedaPages := fun _ => PageResult.pageOk [],
    doctoGotoOk := true, doctoPages := fun _ => PageResult.pageOk [],
    doctoHasNext := fun _ => false }

/-- The record the doctolib scenario's page carries twice. -/
def dupRec : HealthcareProvider :=
  { name := some "Dr. Max Muster", specialty := some "Kardiologe",
    address := some "Hauptstr. 5, 10115 Berlin", city := some "Berlin" }

/-- The remaining distinct record of the doctolib scenario. -/
def thirdRec : HealthcareProvider :=
  { name := some "Dr. Eva Einzig", specialty := some "Kardiologe",
    address := some "Nebenweg 2, 10115 Berlin", city := some "Berlin" }

/-- The doctolib.de scenario of the spec: `max_pages = 2`, one page seen,
carrying 3 raw records of which 2 are distinct (name, address) pairs, and
no next-page button. -/
def envDoctolibDup : SessionEnv :=
  { targetSite := "doctolib.de", maxPages := 2, setupOk := true,
    sessionFound := true, saveOks := fun _ => true,
    jamedaPages := fun _ => PageResult.pageOk [],
    doctoGotoOk := true,
    doctoPages := fun n =>
      if n = 1 then PageResult.pageOk [some dupRec, some dupRec, some thirdRec]
      else PageResult.pageOk [],
    doctoHasNext := fun _ => false }

/-- A session for a target accepted by the request validator but absent
from the orchestrator's adapter table. -/
def envUnsupported : SessionEnv :=
  { targetSite := "arztauskunft.de", maxPages := 1, setupOk := true,
    sessionFound := true, saveOks := fun _ => true,
    jamedaPages := fun _ => PageResult.pageOk [],
    doctoGotoOk := true, doctoPages := fun _ => PageResult.pageOk [],
    doctoHasNext := fun _ => false }

/-- Health probes that all succeed. -/
def healthResultsAllOk : ℕ → HealthResult :=
  fun _ => { isHealthy := true, responseTime := none, error := none }

/-- A proxy whose last recorded health state is unhealthy. -/
def staleProxy : ProxyEntry :=
  { config := { host := "10.0.0.9", port := 3128 }, isHealthy := some false }

/-- A one-proxy pool whose only entry is known-unhealthy and whose last
health check is stale. -/
def rotStale : RotState ℤ :=
  { proxies := [staleProxy], currentIndex := 0, lastHealthCheck := 0 }

/-- First healthy proxy of the two-proxy rotation pool. -/
def proxyA : ProxyEntry :=
  { config := { host := "10.0.0.1", port := 8080 }, isHealthy := some true }

/-- Second healthy proxy of the two-proxy rotation pool. -/
def proxyB : ProxyEntry :=
  { config := { host := "10.0.0.2", port := 8080 }, isHealthy := some true }

/-- A freshly-checked two-proxy pool, cursor at zero. -/
def rotTwo : RotState ℤ :=
  { proxies := [proxyA, proxyB], currentIndex := 0, lastHealthCheck := 0 }

end Verisnap

namespace Verisnap

variable {Time : Type} [LinearOrderedCommRing Time]

/-! ## Rate-limiter lemmas and claims C1 / C2 -/

lemma cleanOldRequests_eq_filter (now window : Time) (l : List Time)
    (h : l.Sorted (· ≤ ·)) :
    cleanOldRequests now window l = l.filter (fun t => decide (now - t ≤ window)) := by
  induction l with
  | nil => rfl
  | cons t ts ih =>
      rw [List.sorted_cons] at h
      by_cases hst : now - t > window
      · rw [cleanOldRequests, if_pos hst, ih h.2, List.filter_cons, if_neg]
        simp only [decide_eq_true_eq, not_le]
        exact hst
      · rw [cleanOldRequests, if_neg hst, List.filter_cons]
        push_neg at hst
        have h2 : ts.filter (fun t => decide (now - t ≤ window)) = ts :=
          List.filter_eq_self.mpr (fun b hb => by
            simp only [decide_eq_true_eq]
            exact le_trans (sub_le_sub_left (h.1 b hb) now) hst)
        rw [if_pos (decide_eq_true hst), h2]

lemma allowedTimes_cons (maxR : ℕ) (W : Time) (s : RLState Time) (t : Time)
    (ts : List Time) :
    allowedTimes maxR W s (t :: ts) =
      (if (checkRateLimit maxR W s t).1 = Outcome.allowed then [t] else []) ++
        allowedTimes maxR W (checkRateLimit maxR W s t).2 ts := by
  by_cases h : (checkRateLimit maxR W s t).1 = Outcome.allowed <;>
    simp [allowedTimes, runChecks, List.filter_cons, h]

lemma runChecks_snd_cons (maxR : ℕ) (W : Time) (s : RLState Time) (t : Time)
    (ts : List Time) :
    (runChecks maxR W s (t :: ts)).2 =
      (runChecks maxR W (checkRateLimit maxR W s t).2 ts).2 := rfl

/-- The master invariant of all runs of `check_rate_limit` from a state
whose queue holds exactly the allowed timestamps of the last `window`
seconds: the allowed calls in any closed window of length `W` never exceed
`maxR`, and no ban entry is ever created. -/
lemma runChecks_key (maxR : ℕ) (W : Time) (hW : 0 ≤ W) :
    ∀ (ts : List Time) (s : RLState Time) (A : List Time) (τ₀ : Time),
      ts.Sorted (· ≤ ·) → (∀ t ∈ ts, τ₀ ≤ t) →
      A.Sorted (· ≤ ·) → (∀ a ∈ A, a ≤ τ₀) →
      s.queue = A.filter (fun t => decide (τ₀ - t ≤ W)) →
      s.banSince = none →
      (∀ T : Time, A.countP (fun t => decide (T ≤ t ∧ t ≤ T + W)) ≤ maxR) →
      (∀ T : Time,
          (A ++ allowedTimes maxR W s ts).countP
            (fun t => decide (T ≤ t ∧ t ≤ T + W)) ≤ maxR) ∧
        (runChecks maxR W s ts).2.banSince = none := by
  intro ts
  induction ts with
  | nil =>
      intro s A τ₀ _ _ _ _ _ hban hA
      constructor
      · intro T
        simpa [allowedTimes, runChecks] using hA T
      · simpa [runChecks] using hban
  | cons τ rest ih =>
      intro s A τ₀ hsorted hτ₀ hAsorted hAle hqueue hban hA
      rw [List.sorted_cons] at hsorted
      have hτ₀τ : τ₀ ≤ τ := hτ₀ τ (by simp)
      have hqsorted : s.queue.Sorted (· ≤ ·) := by
        rw [hqueue]; exact hAsorted.filter _
      have hclean : cleanOldRequests τ W s.queue
          = A.filter (fun t => decide (τ - t ≤ W)) := by
        rw [cleanOldRequests_eq_filter τ W s.queue hqsorted, hqueue,
          List.filter_filter]
        refine List.filter_congr fun a ha => ?_
        by_cases h : τ - a ≤ W
        · have h0 : τ₀ - a ≤ W := le_trans (sub_le_sub_right hτ₀τ a) h
          simp [h, h0]
        · simp [h]
      have hqlen : (cleanOldRequests τ W s.queue).length
          = A.countP (fun t => decide (τ - t ≤ W)) := by
        rw [hclean, ← List.countP_eq_length_filter]
      have hqle : (cleanOldRequests τ W s.queue).length ≤ maxR := by
        rw [hqlen]
        refine le_trans (List.countP_mono_left fun a ha h => ?_) (hA (τ - W))
        simp only [decide_eq_true_eq] at h ⊢
        refine ⟨sub_le_comm.mp h, ?_⟩
        rw [sub_add_cancel]
        exact le_trans (hAle a ha) hτ₀τ
      have hstep : checkRateLimit maxR W s τ = checkCore maxR W s τ := by
        rw [checkRateLimit, hban]
      by_cases hfull : maxR ≤ (cleanOldRequests τ W s.queue).length
      · -- rejected; no ban is added since the queue cannot exceed 2·maxR
        have hnoban : ¬ maxR * 2 < (cleanOldRequests τ W s.queue).length := by
          omega
        have hcore : checkCore maxR W s τ =
            (Outcome.rateLimited, ⟨cleanOldRequests τ W s.queue, s.banSince⟩) := by
          rw [checkCore]
          simp only [if_pos hfull, if_neg hnoban]
        have := ih ⟨cleanOldRequests τ W s.queue, s.banSince⟩ A τ
          hsorted.2 hsorted.1 hAsorted
          (fun a ha => le_trans (hAle a ha) hτ₀τ) hclean hban hA
        rw [allowedTimes_cons, hstep, hcore, runChecks_snd_cons, hstep, hcore]
        simpa using this
      · -- allowed
        push_neg at hfull
        have hcore : checkCore maxR W s τ =
            (Outcome.allowed, ⟨cleanOldRequests τ W s.queue ++ [τ], s.banSince⟩) := by
          rw [checkCore]
          simp only [if_neg (not_le.mpr hfull)]
        have hA'sorted : (A ++ [τ]).Sorted (· ≤ ·) := by
          rw [List.Sorted, List.pairwise_append]
          exact ⟨hAsorted, List.pairwise_singleton _ _,
            fun a ha b hb => by
              rw [List.mem_singleton] at hb
              exact hb ▸ le_trans (hAle a ha) hτ₀τ⟩
        have hA'le : ∀ a ∈ A ++ [τ], a ≤ τ := by
          intro a ha
          rcases List.mem_append.mp ha with h | h
          · exact le_trans (hAle a h) hτ₀τ
          · rw [List.mem_singleton] at h; exact h.le
        have hq' : (cleanOldRequests τ W s.queue ++ [τ])
            = (A ++ [τ]).filter (fun t => decide (τ - t ≤ W)) := by
          rw [List.filter_append, hclean]
          congr 1
          simp [sub_self, hW]
        have hA' : ∀ T : Time,
            (A ++ [τ]).countP (fun t => decide (T ≤ t ∧ t ≤ T + W)) ≤ maxR := by
          intro T
          rw [List.countP_append]
          by_cases hmem : T ≤ τ ∧ τ ≤ T + W
          · have hcount : A.countP (fun t => decide (T ≤ t ∧ t ≤ T + W))
                ≤ A.countP (fun t => decide (τ - t ≤ W)) := by
              refine List.countP_mono_left fun a ha h => ?_
              simp only [decide_eq_true_eq] at h ⊢
              have hτa : τ ≤ a + W := le_trans hmem.2 (add_le_add_right h.1 W)
              exact sub_le_iff_le_add.mpr (by rwa [add_comm] at hτa)
            have hlt : A.countP (fun t => decide (T ≤ t ∧ t ≤ T + W)) < maxR := by
              calc A.countP (fun t => decide (T ≤ t ∧ t ≤ T + W))
                  ≤ A.countP (fun t => decide (τ - t ≤ W)) := hcount
                _ = (cleanOldRequests τ W s.queue).length := hqlen.symm
                _ < maxR := hfull
            have h1 : [τ].countP (fun t => decide (T ≤ t ∧ t ≤ T + W)) = 1 := by
              simp [List.countP_cons, hmem.1, hmem.2]
            omega
          · have h1 : [τ].countP (fun t => decide (T ≤ t ∧ t ≤ T + W)) = 0 := by
              simp only [List.countP_cons, List.countP_nil, decide_eq_true_eq]
              simp [hmem]
            have h2 := hA T
            omega
        have := ih ⟨cleanOldRequests τ W s.queue ++ [τ], s.banSince⟩ (A ++ [τ]) τ
          hsorted.2 hsorted.1 hA'sorted hA'le hq' hban hA'
        rw [allowedTimes_cons, hstep, hcore, runChecks_snd_cons, hstep, hcore]
        constructor
        · intro T
          have h1 := this.1 T
          simpa [List.append_assoc] using h1
        · exact this.2

/-- Claim C2 (confirmed): for every identifier, the allowed (non-raising)
`check_rate_limit` calls whose timestamps fall within any rolling window of
`window_seconds` never exceed `max_requests`, and on every (non-banned)
check all queue entries older than `window_seconds` are purged, so the
resulting queue holds only timestamps within `now - window_size`. -/
theorem slidingWindow_bound_and_purge
    (maxR : ℕ) (W : Time) (hW : 0 ≤ W) (ts : List Time)
    (hts : ts.Sorted (· ≤ ·)) :
    (∀ T : Time,
        (allowedTimes maxR W RLState.init ts).countP
          (fun t => decide (T ≤ t ∧ t ≤ T + W)) ≤ maxR) ∧
      ∀ (s : RLState Time) (now : Time), s.banSince = none →
        s.queue.Sorted (· ≤ ·) →
        ∀ t ∈ (checkRateLimit maxR W s now).2.queue, now - t ≤ W := by
  constructor
  · intro T
    cases ts with
    | nil => simp [allowedTimes, runChecks]
    | cons t rest =>
        have h := runChecks_key maxR W hW (t :: rest) RLState.init [] t hts
          (fun x hx => by
            rcases List.mem_cons.mp hx with h | h
            · exact h.ge
            · exact (List.sorted_cons.mp hts).1 x h)
          (List.Pairwise.nil)
          (by intro a ha; cases ha)
          rfl
          rfl
          (by intro T'; simp)
        simpa using h.1 T
  · intro s now hban hqs t ht
    have hclean : ∀ u ∈ cleanOldRequests now W s.queue, now - u ≤ W := by
      rw [cleanOldRequests_eq_filter now W s.queue hqs]
      intro u hu
      simpa using (List.mem_filter.mp hu).2
    rw [checkRateLimit, hban] at ht
    simp only [checkCore] at ht
    split at ht
    · split at ht
      · exact hclean t ht
      · exact hclean t ht
    · rcases List.mem_append.mp ht with h | h
      · exact hclean t h
      · rw [List.mem_singleton] at h
        subst h
        simpa using hW

/-- Witness for `slidingWindow_bound_and_purge` at `maxR = 2`,
`W = 3600`, three integer timestamps, and one concrete state. -/
theorem slidingWindow_witness :
    ((allowedTimes 2 3600 RLState.init [(0 : ℤ), 1, 2]).countP
        (fun t => decide ((0 : ℤ) ≤ t ∧ t ≤ 0 + 3600)) ≤ 2) ∧
      ∀ t ∈ (checkRateLimit 2 3600 (⟨[(0 : ℤ)], none⟩ : RLState ℤ) 10).2.queue,
        (10 : ℤ) - t ≤ 3600 :=
  ⟨(slidingWindow_bound_and_purge 2 3600 (by decide) [(0 : ℤ), 1, 2] (by decide)).1 0,
   (slidingWindow_bound_and_purge 2 3600 (by decide) [(0 : ℤ), 1, 2] (by decide)).2
     ⟨[0], none⟩ 10 rfl (by decide)⟩

set_option maxRecDepth 40000 in
/-- Claim C1 (counterexample): 250 requests with a fixed limit of 100,
all inside one 3600-second window, never create a ban entry — requests
beyond the 100th are rejected with 429 but not recorded, so the queue
never exceeds twice the limit and the identifier is not banned. -/
theorem noBanOnBurst_counterexample :
    burst250.length = 250 ∧
      (∀ t ∈ burst250, (0 : ℤ) ≤ t ∧ t ≤ 3600) ∧
      (runChecks 100 3600 RLState.init burst250).2.banSince = none ∧
      ((runChecks 100 3600 (RLState.init : RLState ℤ) burst250).1.filter
          (fun p => p.2 = Outcome.allowed)).length = 100 ∧
      ((runChecks 100 3600 (RLState.init : RLState ℤ) burst250).1.filter
          (fun p => p.2 = Outcome.bannedReject)).length = 0 := by
  decide

/-- Claim C1 (amended): a run of `check_rate_limit` with a fixed
`max_requests` from a fresh state never creates a ban entry, because
rejected requests are not recorded; when a ban entry is active
(`now - banStart < ban_duration = 60` minutes), every check for that
identifier fails immediately regardless of the queue; once the duration
has elapsed the entry is deleted and checking resumes. -/
theorem banPolicy_amended (maxR : ℕ) (W : Time) (hW : 0 ≤ W) :
    (∀ ts : List Time, ts.Sorted (· ≤ ·) →
        (runChecks maxR W RLState.init ts).2.banSince = none) ∧
      (∀ (s : RLState Time) (b now : Time), s.banSince = some b →
        now - b < banDurationSeconds →
        checkRateLimit maxR W s now = (Outcome.bannedReject, s)) ∧
      ∀ (s : RLState Time) (b now : Time), s.banSince = some b →
        ¬ now - b < banDurationSeconds →
        checkRateLimit maxR W s now = checkCore maxR W ⟨s.queue, none⟩ now := by
  refine ⟨?_, ?_, ?_⟩
  · intro ts hts
    cases ts with
    | nil => rfl
    | cons t rest =>
        have h := runChecks_key maxR W hW (t :: rest) RLState.init [] t hts
          (fun x hx => by
            rcases List.mem_cons.mp hx with h | h
            · exact h.ge
            · exact (List.sorted_cons.mp hts).1 x h)
          (List.Pairwise.nil)
          (by intro a ha; cases ha)
          rfl
          rfl
          (by intro T'; simp)
        exact h.2
  · intro s b now hb hlt
    simp only [checkRateLimit, hb]
    rw [if_pos hlt]
  · intro s b now hb hlt
    simp only [checkRateLimit, hb]
    rw [if_neg hlt]

/-- Witness for `banPolicy_amended` at concrete integer inputs: a sorted
two-request run stays unbanned, an active ban short-circuits, and an
expired ban is dropped. -/
theorem banPolicy_amended_witness :
    (runChecks 2 3600 RLState.init [(5 : ℤ), 7]).2.banSince = none ∧
      checkRateLimit 2 3600 (⟨[(1 : ℤ)], some 1⟩ : RLState ℤ) 100
        = (Outcome.bannedReject, ⟨[1], some 1⟩) ∧
      checkRateLimit 2 3600 (⟨[(1 : ℤ)], some 1⟩ : RLState ℤ) 5000
        = checkCore 2 3600 ⟨[(1 : ℤ)], none⟩ 5000 :=
  ⟨(banPolicy_amended 2 3600 (by decide)).1 [5, 7] (by decide),
   (banPolicy_amended 2 3600 (by decide)).2.1 ⟨[1], some 1⟩ 1 100 rfl (by decide),
   (banPolicy_amended 2 3600 (by decide)).2.2 ⟨[1], some 1⟩ 1 5000 rfl (by decide)⟩

/-! ## Concurrency-gate lemmas and claim C3 -/

lemma gateStep_le (maxC : ℕ) (s : GateState) (e : GateEvent)
    (h : ∀ x, s.activeScrapes x ≤ maxC) :
    ∀ x, (gateStep maxC s e).1.activeScrapes x ≤ maxC := by
  intro x
  cases e with
  | request site createOk =>
      by_cases hc : checkScrapingLimit maxC s site
      · by_cases hk : createOk
        · have hlt : s.activeScrapes site < maxC := by
            simpa [checkScrapingLimit] using hc
          simp only [gateStep, if_pos hc, hk, if_pos]
          simp only [startScrapingCounter]
          by_cases hx : x = site
          · subst hx; simpa using hlt
          · simpa [hx] using h x
        · simp only [gateStep, if_pos hc, hk, if_neg]
          simpa using h x
      · simp only [gateStep, if_neg hc]
        exact h x
  | finish site =>
      simp only [gateStep, finishScrapingCounter]
      by_cases hx : x = site
      · subst hx
        by_cases hp : 0 < s.activeScrapes x
        · simpa [hp] using le_trans (Nat.sub_le _ 1) (h x)
        · simpa [hp] using h x
      · simpa [hx] using h x

lemma runGate_le (maxC : ℕ) :
    ∀ (evs : List GateEvent) (s : GateState),
      (∀ x, s.activeScrapes x ≤ maxC) →
      ∀ x, (runGate maxC s evs).activeScrapes x ≤ maxC := by
  intro evs
  induction evs with
  | nil => intro s h x; exact h x
  | cons e es ih =>
      intro s h x
      exact ih _ (gateStep_le maxC s e h) x

/-- Claim C3 (confirmed): the per-target active-scrape counter never
exceeds the configured maximum along any event sequence; a request for a
target at its cap is rejected with the too-many-concurrent error and
creates no `Session` entity; an admitted request increments the counter
after creating the session; `finish_scraping` decrements floored at
zero. -/
theorem concurrencyGate_bound (maxC : ℕ) (evs : List GateEvent) :
    (∀ site, (runGate maxC GateState.init evs).activeScrapes site ≤ maxC) ∧
      (∀ (s : GateState) (site : String) (createOk : Bool),
        maxC ≤ s.activeScrapes site →
        gateStep maxC s (GateEvent.request site createOk)
          = (s, RouteOutcome.rejectedTooMany, false)) ∧
      (∀ (s : GateState) (site : String),
        s.activeScrapes site < maxC →
        (gateStep maxC s (GateEvent.request site true)).1.activeScrapes site
            = s.activeScrapes site + 1 ∧
          (gateStep maxC s (GateEvent.request site true)).2
            = (RouteOutcome.admitted, true)) ∧
      ∀ (s : GateState) (site : String),
        (gateStep maxC s (GateEvent.finish site)).1.activeScrapes site
          = s.activeScrapes site - 1 := by
  refine ⟨?_, ?_, ?_, ?_⟩
  · exact runGate_le maxC evs GateState.init (fun x => Nat.zero_le maxC)
  · intro s site createOk hge
    have hc : ¬ checkScrapingLimit maxC s site = true := by
      simpa [checkScrapingLimit] using hge
    simp [gateStep, hc]
  · intro s site hlt
    have hc : checkScrapingLimit maxC s site = true := by
      simpa [checkScrapingLimit] using hlt
    refine ⟨?_, by simp [gateStep, hc]⟩
    simp [gateStep, hc, startScrapingCounter]
  · intro s site
    simp only [gateStep, finishScrapingCounter]
    by_cases hp : 0 < s.activeScrapes site
    · simp [hp]
    · have h0 : s.activeScrapes site = 0 := Nat.eq_zero_of_not_pos hp
      simp [h0]

/-- Witness for `concurrencyGate_bound` at `maxC = maxConcurrentScrapes = 3`
and concrete gate states. -/
theorem concurrencyGate_bound_witness :
    gateStep 3 ⟨fun _ => 3⟩ (GateEvent.request "jameda.de" true)
        = (⟨fun _ => 3⟩, RouteOutcome.rejectedTooMany, false) ∧
      (gateStep 3 ⟨fun _ => 2⟩ (GateEvent.request "jameda.de" true)).1.activeScrapes
          "jameda.de" = 3 ∧
      (gateStep 3 ⟨fun _ => 1⟩ (GateEvent.finish "jameda.de")).1.activeScrapes
          "jameda.de" = 0 ∧
      maxConcurrentScrapes = 3 :=
  ⟨(concurrencyGate_bound 3 []).2.1 ⟨fun _ => 3⟩ "jameda.de" true (by decide),
   ((concurrencyGate_bound 3 []).2.2.1 ⟨fun _ => 2⟩ "jameda.de" (by decide)).1,
   (concurrencyGate_bound 3 []).2.2.2 ⟨fun _ => 1⟩ "jameda.de",
   rfl⟩

end Verisnap

namespace Verisnap

/-! ## Confidence score: claim C4 -/

/-- Claim C4 (confirmed): the confidence score is a deterministic function
of the record's fields; a record with name, address, phone, email, rating,
website and specialty all present scores exactly 100; a record with only a
name scores exactly `(1/4)*70 = 17.5 = 35/2`; the score is capped at
100. -/
theorem confidenceScore_spec (p : HealthcareProvider) :
    (filledStr p.name = true → filledStr p.address = true →
      filledStr p.phone = true → filledStr p.email = true →
      p.rating.isSome = true → truthyStr p.website = true →
      truthyStr p.specialty = true → calculateConfidenceScore p = 100) ∧
    (filledStr p.name = true → filledStr p.address = false →
      filledStr p.phone = false → filledStr p.email = false →
      p.rating = none → truthyStr p.website = false →
      truthyStr p.specialty = false → calculateConfidenceScore p = 35 / 2) ∧
    calculateConfidenceScore p ≤ 100 ∧
    (∀ q : HealthcareProvider, q.name = p.name → q.address = p.address →
      q.phone = p.phone → q.email = p.email → q.rating = p.rating →
      q.website = p.website → q.specialty = p.specialty →
      calculateConfidenceScore q = calculateConfidenceScore p) := by
  refine ⟨?_, ?_, ?_, ?_⟩
  · intro h1 h2 h3 h4 h5 h6 h7
    simp only [calculateConfidenceScore, List.filter_cons, List.filter_nil,
      h1, h2, h3, h4, h5, h6, h7, if_true]
    norm_num
  · intro h1 h2 h3 h4 h5 h6 h7
    simp only [calculateConfidenceScore, List.filter_cons, List.filter_nil,
      h1, h2, h3, h4, h5, h6, h7, Option.isSome_none, if_true, if_false,
      Bool.false_eq_true]
    norm_num
  · exact min_le_right _ _
  · intro q h1 h2 h3 h4 h5 h6 h7
    simp only [calculateConfidenceScore, h1, h2, h3, h4, h5, h6, h7]

/-- Witness for `confidenceScore_spec`: an all-fields record scores 100 and
a name-only record scores 17.5. -/
theorem confidenceScore_spec_witness :
    calculateConfidenceScore
        { name := some "Dr. Maria Beispiel", address := some "Teststr. 1, 10115 Berlin",
          phone := some "+49 30 1234567", email := some "praxis@example.de",
          website := some "https://example.de", rating := some 4,
          specialty := some "Kardiologie" } = 100 ∧
      calculateConfidenceScore { name := some "Dr. Maria Beispiel" } = 35 / 2 :=
  ⟨(confidenceScore_spec _).1 (by decide) (by decide) (by decide) (by decide)
      (by decide) (by decide) (by decide),
   (confidenceScore_spec _).2.1 (by decide) (by decide) (by decide) (by decide)
      rfl (by decide) (by decide)⟩

/-! ## Session-orchestration lemmas and claims C5, C6, C7, C10 -/

lemma jamedaGo_events (pages : ℕ → PageResult) :
    ∀ (fuel n : ℕ), ∃ m,
      (jamedaGo pages n fuel).1 = (List.range' n m).map Event.processPage := by
  intro fuel
  induction fuel with
  | zero => intro n; exact ⟨0, rfl⟩
  | succ fuel ih =>
      intro n
      obtain ⟨m, hm⟩ := ih (n + 1)
      cases hpg : pages n with
      | pageError =>
          refine ⟨m + 1, ?_⟩
          simp [jamedaGo, hpg, hm, List.range'_succ]
      | pageOk cards =>
          by_cases hc : cards.isEmpty
          · refine ⟨1, ?_⟩
            simp [jamedaGo, hpg, hc, List.range'_succ]
          · refine ⟨m + 1, ?_⟩
            simp [jamedaGo, hpg, hc, hm, List.range'_succ]

lemma doctolibGo_events (pages : ℕ → PageResult) (hasNext : ℕ → Bool) :
    ∀ (fuel n : ℕ), ∃ m,
      (doctolibGo pages hasNext n fuel).1
        = (List.range' n m).map Event.processPage := by
  intro fuel
  induction fuel with
  | zero => intro n; exact ⟨0, rfl⟩
  | succ fuel ih =>
      intro n
      obtain ⟨m, hm⟩ := ih (n + 1)
      cases hpg : pages n with
      | pageError =>
          refine ⟨m + 1, ?_⟩
          simp [doctolibGo, hpg, hm, List.range'_succ]
      | pageOk cards =>
          by_cases hc : cards.isEmpty
          · refine ⟨1, ?_⟩
            simp [doctolibGo, hpg, hc, List.range'_succ]
          · by_cases hn : hasNext n
            · refine ⟨m + 1, ?_⟩
              simp [doctolibGo, hpg, hc, hn, hm, List.range'_succ]
            · refine ⟨1, ?_⟩
              simp [doctolibGo, hpg, hc, hn, List.range'_succ]

lemma runAdapter_events (env : SessionEnv) :
    ∃ m, (runAdapter env).1 = (List.range' 1 m).map Event.processPage := by
  rw [runAdapter]
  by_cases ht : env.targetSite = "jameda.de"
  · rw [if_pos ht]
    exact jamedaGo_events env.jamedaPages env.maxPages 1
  · rw [if_neg ht, doctolibSearch]
    by_cases hg : env.doctoGotoOk
    · rw [if_pos hg]
      exact doctolibGo_events env.doctoPages env.doctoHasNext env.maxPages 1
    · rw [if_neg hg]
      exact ⟨0, rfl⟩

lemma saveLoop_take (saveOks : ℕ → Bool) :
    ∀ (ps : List HealthcareProvider) (k : ℕ), ∃ m,
      (saveLoop saveOks ps k).1 = (ps.take m).map Event.saveRecord := by
  intro ps
  induction ps with
  | nil => intro k; exact ⟨0, rfl⟩
  | cons p ps ih =>
      intro k
      obtain ⟨m, hm⟩ := ih (k + 1)
      by_cases hk : saveOks k
      · exact ⟨m + 1, by simp [saveLoop, hk, hm]⟩
      · exact ⟨0, by simp [saveLoop, hk]⟩

lemma saveLoop_ok (saveOks : ℕ → Bool) :
    ∀ (ps : List HealthcareProvider) (k : ℕ),
      (saveLoop saveOks ps k).2.2 = true →
      (saveLoop saveOks ps k).1 = ps.map Event.saveRecord ∧
        (saveLoop saveOks ps k).2.1 = ps.length := by
  intro ps
  induction ps with
  | nil => intro k _; exact ⟨rfl, rfl⟩
  | cons p ps ih =>
      intro k hok
      by_cases hk : saveOks k
      · simp only [saveLoop, hk, if_true] at hok ⊢
        obtain ⟨h1, h2⟩ := ih (k + 1) hok
        simp [h1, h2]
      · simp [saveLoop, hk] at hok

lemma statusSeq_append (l₁ l₂ : List Event) :
    statusSeq (l₁ ++ l₂) = statusSeq l₁ ++ statusSeq l₂ :=
  List.filterMap_append l₁ l₂ _

lemma savedRecords_append (l₁ l₂ : List Event) :
    savedRecords (l₁ ++ l₂) = savedRecords l₁ ++ savedRecords l₂ :=
  List.filterMap_append l₁ l₂ _

lemma statusSeq_pages (n m : ℕ) :
    statusSeq ((List.range' n m).map Event.processPage) = [] := by
  rw [statusSeq, List.filterMap_map]
  exact List.filterMap_eq_nil_iff.mpr (fun a _ => rfl)

lemma savedRecords_pages (n m : ℕ) :
    savedRecords ((List.range' n m).map Event.processPage) = [] := by
  rw [savedRecords, List.filterMap_map]
  exact List.filterMap_eq_nil_iff.mpr (fun a _ => rfl)

lemma statusSeq_saves (ps : List HealthcareProvider) :
    statusSeq (ps.map Event.saveRecord) = [] := by
  rw [statusSeq, List.filterMap_map]
  exact List.filterMap_eq_nil_iff.mpr (fun a _ => rfl)

lemma savedRecords_saves (ps : List HealthcareProvider) :
    savedRecords (ps.map Event.saveRecord) = ps := by
  induction ps with
  | nil => rfl
  | cons p ps ih => simpa [savedRecords, List.filterMap_cons] using ih

lemma getLast?_shape {α : Type} (e : α) (l₁ l₂ : List α) (x : α) :
    (e :: l₁ ++ l₂ ++ [x]).getLast? = some x := by
  rw [List.getLast?_concat]

lemma statusSeq_nil : statusSeq [] = [] := rfl

lemma savedRecords_nil : savedRecords [] = [] := rfl

lemma statusSeq_cons_status (st : Status) (pg tot : Option ℕ) (l : List Event) :
    statusSeq (Event.statusUpdate st pg tot :: l) = st :: statusSeq l := by
  simp [statusSeq, List.filterMap_cons]

lemma savedRecords_cons_status (st : Status) (pg tot : Option ℕ) (l : List Event) :
    savedRecords (Event.statusUpdate st pg tot :: l) = savedRecords l := by
  simp [savedRecords, List.filterMap_cons]

lemma runScrapingSession_trace_completed (env : SessionEnv)
    (hT : env.targetSite ∈ scraperSites) (hS : env.setupOk = true)
    (hF : env.sessionFound = true)
    (hok : (saveLoop env.saveOks (runAdapter env).2.1 0).2.2 = true) :
    (runScrapingSession env).2 =
      Event.statusUpdate Status.running (some 0) (some 0) :: (runAdapter env).1 ++
        (runAdapter env).2.1.map Event.saveRecord ++
        [Event.statusUpdate Status.completed
          (some (runAdapter env).2.2.pagesScraped)
          (some (runAdapter env).2.1.length)] := by
  obtain ⟨h1, h2⟩ := saveLoop_ok env.saveOks (runAdapter env).2.1 0 hok
  simp only [runScrapingSession, if_pos hT, hS, if_true, hF, hok, h1, h2]

lemma runScrapingSession_trace_saveFailed (env : SessionEnv)
    (hT : env.targetSite ∈ scraperSites) (hS : env.setupOk = true)
    (hF : env.sessionFound = true)
    (hok : (saveLoop env.saveOks (runAdapter env).2.1 0).2.2 = false) :
    (runScrapingSession env).2 =
      Event.statusUpdate Status.running (some 0) (some 0) :: (runAdapter env).1 ++
        (saveLoop env.saveOks (runAdapter env).2.1 0).1 ++
        [Event.statusUpdate Status.failed
          (some (runAdapter env).2.2.pagesScraped)
          (some (runAdapter env).2.2.totalRecords)] := by
  simp only [runScrapingSession, if_pos hT, hS, if_true, hF, hok,
    Bool.false_eq_true, if_false]

lemma runScrapingSession_trace_notFound (env : SessionEnv)
    (hT : env.targetSite ∈ scraperSites) (hS : env.setupOk = true)
    (hF : env.sessionFound = false) :
    (runScrapingSession env).2 =
      Event.statusUpdate Status.running (some 0) (some 0) :: (runAdapter env).1 := by
  simp only [runScrapingSession, if_pos hT, hS, if_true, hF,
    Bool.false_eq_true, if_false]

lemma runScrapingSession_trace_setupFailed (env : SessionEnv)
    (hT : env.targetSite ∈ scraperSites) (hS : env.setupOk = false) :
    (runScrapingSession env).2 =
      [Event.statusUpdate Status.failed (some 0) (some 0)] := by
  simp only [runScrapingSession, if_pos hT, hS, Bool.false_eq_true, if_false]

lemma runScrapingSession_unsupported (env : SessionEnv)
    (hT : env.targetSite ∉ scraperSites) :
    runScrapingSession env = (⟨false, 0, 0, 0⟩, []) := by
  simp only [runScrapingSession, if_neg hT]

/-- Claim C5 (confirmed): the status-update sequence of every session run
moves only along the allowed edges — it is one of `[]`, `[failed]`,
`[running]`, `[running, completed]`, `[running, failed]`; a direct
`pending → failed` transition happens only when `scraper.setup` fails; and
a `completed` update implies that the persisted records are exactly the
adapter's full batch, that its `total_records` counter equals that batch's
size, its `pages_scraped` counter the adapter's page count, and that the
`completed` update is the final event of the run. -/
theorem sessionStatusMachine (env : SessionEnv) :
    (statusSeq (runScrapingSession env).2 = [] ∨
      statusSeq (runScrapingSession env).2 = [Status.failed] ∨
      statusSeq (runScrapingSession env).2 = [Status.running] ∨
      statusSeq (runScrapingSession env).2 = [Status.running, Status.completed] ∨
      statusSeq (runScrapingSession env).2 = [Status.running, Status.failed]) ∧
    (statusSeq (runScrapingSession env).2 = [Status.failed] → env.setupOk = false) ∧
    (∀ pg tot,
      Event.statusUpdate Status.completed pg tot ∈ (runScrapingSession env).2 →
      savedRecords (runScrapingSession env).2 = (runAdapter env).2.1 ∧
        tot = some (runAdapter env).2.1.length ∧
        pg = some (runAdapter env).2.2.pagesScraped ∧
        (runScrapingSession env).2.getLast?
          = some (Event.statusUpdate Status.completed pg tot)) := by
  obtain ⟨mp, hmp⟩ := runAdapter_events env
  by_cases hT : env.targetSite ∈ scraperSites
  · by_cases hS : env.setupOk = true
    · by_cases hF : env.sessionFound = true
      · by_cases hok : (saveLoop env.saveOks (runAdapter env).2.1 0).2.2 = true
        · -- all saves succeed: [running, completed]
          have htr := runScrapingSession_trace_completed env hT hS hF hok
          have hstat : statusSeq (runScrapingSession env).2
              = [Status.running, Status.completed] := by
            simp only [htr, List.cons_append, List.append_assoc, statusSeq_append,
              statusSeq_cons_status, hmp, statusSeq_pages, statusSeq_saves,
              statusSeq_nil, List.nil_append]
          refine ⟨Or.inr (Or.inr (Or.inr (Or.inl hstat))), ?_, ?_⟩
          · intro h; rw [hstat] at h; exact absurd h (by simp)
          · intro pg tot hmem
            have hsaved : savedRecords (runScrapingSession env).2
                = (runAdapter env).2.1 := by
              simp only [htr, List.cons_append, List.append_assoc,
                savedRecords_append, savedRecords_cons_status, hmp,
                savedRecords_pages, savedRecords_saves, savedRecords_nil,
                List.nil_append, List.append_nil]
            have hvals : pg = some (runAdapter env).2.2.pagesScraped ∧
                tot = some (runAdapter env).2.1.length := by
              rw [htr] at hmem
              rcases List.mem_cons.mp hmem with h | h
              · exact absurd h (by simp)
              rcases List.mem_append.mp h with h | h
              · rcases List.mem_append.mp h with h | h
                · rw [hmp] at h
                  rcases List.mem_map.mp h with ⟨k, _, h⟩
                  exact Event.noConfusion h
                · rcases List.mem_map.mp h with ⟨q, _, h⟩
                  exact Event.noConfusion h
              · have h := List.mem_singleton.mp h
                injection h with h1 h2 h3
                exact ⟨h2, h3⟩
            refine ⟨hsaved, hvals.2, hvals.1, ?_⟩
            rw [htr, hvals.1, hvals.2]
            exact getLast?_shape _ _ _ _
        · -- a save fails: [running, failed]
          have hok' : (saveLoop env.saveOks (runAdapter env).2.1 0).2.2 = false := by
            simpa using hok
          have htr := runScrapingSession_trace_saveFailed env hT hS hF hok'
          obtain ⟨ms, hms⟩ := saveLoop_take env.saveOks (runAdapter env).2.1 0
          have hstat : statusSeq (runScrapingSession env).2
              = [Status.running, Status.failed] := by
            simp only [htr, List.cons_append, List.append_assoc, statusSeq_append,
              statusSeq_cons_status, hmp, hms, statusSeq_pages, statusSeq_saves,
              statusSeq_nil, List.nil_append]
          refine ⟨Or.inr (Or.inr (Or.inr (Or.inr hstat))), ?_, ?_⟩
          · intro h; rw [hstat] at h; exact absurd h (by simp)
          · intro pg tot hmem
            rw [htr] at hmem
            rcases List.mem_cons.mp hmem with h | h
            · exact absurd h (by simp)
            rcases List.mem_append.mp h with h | h
            · rcases List.mem_append.mp h with h | h
              · rw [hmp] at h
                rcases List.mem_map.mp h with ⟨k, _, h⟩
                exact Event.noConfusion h
              · rw [hms] at h
                rcases List.mem_map.mp h with ⟨q, _, h⟩
                exact Event.noConfusion h
            · have h := List.mem_singleton.mp h
              injection h with h1 h2 h3
              exact Status.noConfusion h1
      · -- session row not found: stuck in running
        have hF' : env.sessionFound = false := by simpa using hF
        have htr := runScrapingSession_trace_notFound env hT hS hF'
        have hstat : statusSeq (runScrapingSession env).2 = [Status.running] := by
          rw [htr, statusSeq_cons_status, hmp, statusSeq_pages]
        refine ⟨Or.inr (Or.inr (Or.inl hstat)), ?_, ?_⟩
        · intro h; rw [hstat] at h; exact absurd h (by simp)
        · intro pg tot hmem
          rw [htr] at hmem
          rcases List.mem_cons.mp hmem with h | h
          · exact absurd h (by simp)
          · rw [hmp] at h
            rcases List.mem_map.mp h with ⟨k, _, h⟩
            exact Event.noConfusion h
    · -- setup failed: direct pending → failed
      have hS' : env.setupOk = false := by simpa using hS
      have htr := runScrapingSession_trace_setupFailed env hT hS'
      have hstat : statusSeq (runScrapingSession env).2 = [Status.failed] := by
        rw [htr]; rfl
      refine ⟨Or.inr (Or.inl hstat), fun _ => hS', ?_⟩
      intro pg tot hmem
      rw [htr] at hmem
      have h := List.mem_singleton.mp hmem
      injection h with h1 h2 h3
      exact Status.noConfusion h1
  · -- unsupported target: no database call at all
    have htr := runScrapingSession_unsupported env hT
    have hstat : statusSeq (runScrapingSession env).2 = [] := by rw [htr]; rfl
    refine ⟨Or.inl hstat, ?_, ?_⟩
    · intro h; rw [hstat] at h; exact absurd h (by simp)
    · intro pg tot hmem
      rw [htr] at hmem
      exact absurd hmem (by simp)

/-- Witness for `sessionStatusMachine` at the two concrete environments
`envTwoPages` (completed run) and `envSetupFail` (setup failure). -/
theorem sessionStatusMachine_witness :
    Event.statusUpdate Status.completed (some 2) (some 2)
        ∈ (runScrapingSession envTwoPages).2 ∧
      (savedRecords (runScrapingSession envTwoPages).2
          = (runAdapter envTwoPages).2.1 ∧
        (some 2 : Option ℕ) = some (runAdapter envTwoPages).2.1.length ∧
        (some 2 : Option ℕ) = some (runAdapter envTwoPages).2.2.pagesScraped ∧
        (runScrapingSession envTwoPages).2.getLast?
          = some (Event.statusUpdate Status.completed (some 2) (some 2))) ∧
      envSetupFail.setupOk = false :=
  ⟨by decide,
   (sessionStatusMachine envTwoPages).2.2 (some 2) (some 2) (by decide),
   (sessionStatusMachine envSetupFail).2.1 (by decide)⟩

/-- Claim C6 (counterexample): in a two-page jameda.de session, the record
extracted on page 1 is persisted only after page 2 has been processed — the
trace has `processPage 2` at index 2 and `saveRecord recPage1` at index 3,
so no record is persisted before the next page begins. -/
theorem noStreamingPersist_counterexample :
    (runScrapingSession envTwoPages).2 =
      [Event.statusUpdate Status.running (some 0) (some 0),
        Event.processPage 1, Event.processPage 2,
        Event.saveRecord recPage1, Event.saveRecord recPage2,
        Event.statusUpdate Status.completed (some 2) (some 2)] ∧
      envTwoPages.jamedaPages 1 = PageResult.pageOk [some recPage1] ∧
      ¬ ((runScrapingSession envTwoPages).2.indexOf (Event.saveRecord recPage1)
          < (runScrapingSession envTwoPages).2.indexOf (Event.processPage 2)) := by
  decide

/-- Claim C6 (amended): within one session pages are processed in
increasing page-number order (the page events are consecutively numbered
from 1), but records are buffered and persisted in one batch only after
the adapter has drained all pages — every page event precedes every save
event — with the persisted records a prefix of the adapter's emission
order (the full batch on success). -/
theorem pagesBeforeBatchPersist (env : SessionEnv) :
    (∃ m, (runAdapter env).1 = (List.range' 1 m).map Event.processPage) ∧
      ((runScrapingSession env).2.Pairwise
        (fun a b => isSaveEvent a = false ∨ isPageEvent b = false)) ∧
      (∃ k, savedRecords (runScrapingSession env).2 = (runAdapter env).2.1.take k) := by
  obtain ⟨mp, hmp⟩ := runAdapter_events env
  have hpagesNoSave : ∀ e ∈ Event.statusUpdate Status.running (some 0) (some 0)
      :: (runAdapter env).1, isSaveEvent e = false := by
    intro e he
    rcases List.mem_cons.mp he with h | h
    · rw [h]; rfl
    · rw [hmp] at h
      rcases List.mem_map.mp h with ⟨k, _, h⟩
      rw [← h]; rfl
  have key : ∀ (B : List Event) (final : Event),
      (∀ e ∈ B, isPageEvent e = false) → isPageEvent final = false →
      ((Event.statusUpdate Status.running (some 0) (some 0)
          :: (runAdapter env).1 ++ B) ++ [final]).Pairwise
        (fun a b => isSaveEvent a = false ∨ isPageEvent b = false) := by
    intro B final hB hfin
    rw [List.pairwise_append]
    refine ⟨?_, List.pairwise_singleton _ _, ?_⟩
    · rw [List.pairwise_append]
      refine ⟨?_, ?_, ?_⟩
      · exact List.pairwise_of_forall_mem_list
          (fun a ha _ _ => Or.inl (hpagesNoSave a ha))
      · exact List.pairwise_of_forall_mem_list
          (fun _ _ b hb => Or.inr (hB b hb))
      · intro a ha b _
        exact Or.inl (hpagesNoSave a ha)
    · intro a _ b hb
      rw [List.mem_singleton.mp hb]
      exact Or.inr hfin
  refine ⟨⟨mp, hmp⟩, ?_, ?_⟩
  · -- no save event ever precedes a page event
    by_cases hT : env.targetSite ∈ scraperSites
    · by_cases hS : env.setupOk = true
      · by_cases hF : env.sessionFound = true
        · obtain ⟨ms, hms⟩ := saveLoop_take env.saveOks (runAdapter env).2.1 0
          by_cases hok : (saveLoop env.saveOks (runAdapter env).2.1 0).2.2 = true
          · rw [runScrapingSession_trace_completed env hT hS hF hok]
            refine key _ _ (fun e he => ?_) rfl
            rcases List.mem_map.mp he with ⟨q, _, h⟩
            rw [← h]; rfl
          · have hok' : (saveLoop env.saveOks (runAdapter env).2.1 0).2.2 = false := by
              simpa using hok
            rw [runScrapingSession_trace_saveFailed env hT hS hF hok']
            refine key _ _ (fun e he => ?_) rfl
            rw [hms] at he
            rcases List.mem_map.mp he with ⟨q, _, h⟩
            rw [← h]; rfl
        · have hF' : env.sessionFound = false := by simpa using hF
          rw [runScrapingSession_trace_notFound env hT hS hF']
          exact List.pairwise_of_forall_mem_list
            (fun a ha _ _ => Or.inl (hpagesNoSave a ha))
      · have hS' : env.setupOk = false := by simpa using hS
        rw [runScrapingSession_trace_setupFailed env hT hS']
        exact List.pairwise_singleton _ _
    · rw [(runScrapingSession_unsupported env hT)]
      exact List.Pairwise.nil
  · -- the persisted records are a prefix of the adapter's batch
    by_cases hT : env.targetSite ∈ scraperSites
    · by_cases hS : env.setupOk = true
      · by_cases hF : env.sessionFound = true
        · obtain ⟨ms, hms⟩ := saveLoop_take env.saveOks (runAdapter env).2.1 0
          by_cases hok : (saveLoop env.saveOks (runAdapter env).2.1 0).2.2 = true
          · refine ⟨(runAdapter env).2.1.length, ?_⟩
            obtain ⟨h1, _⟩ := saveLoop_ok env.saveOks (runAdapter env).2.1 0 hok
            rw [runScrapingSession_trace_completed env hT hS hF hok,
              savedRecords_append, savedRecords_append, savedRecords_cons_status,
              hmp, savedRecords_pages, savedRecords_saves, List.nil_append,
              List.take_length]
            simp [savedRecords]
          · have hok' : (saveLoop env.saveOks (runAdapter env).2.1 0).2.2 = false := by
              simpa using hok
            refine ⟨ms, ?_⟩
            rw [runScrapingSession_trace_saveFailed env hT hS hF hok',
              savedRecords_append, savedRecords_append, savedRecords_cons_status,
              hmp, hms, savedRecords_pages, savedRecords_saves, List.nil_append]
            simp [savedRecords]
        · have hF' : env.sessionFound = false := by simpa using hF
          refine ⟨0, ?_⟩
          rw [runScrapingSession_trace_notFound env hT hS hF',
            savedRecords_cons_status, hmp, savedRecords_pages, List.take_zero]
      · have hS' : env.setupOk = false := by simpa using hS
        refine ⟨0, ?_⟩
        rw [runScrapingSession_trace_setupFailed env hT hS']
        rfl
    · exact ⟨0, by rw [(runScrapingSession_unsupported env hT)]; rfl⟩

/-- Claim C7 (counterexample): the doctolib adapter performs no
(name, address) deduplication — in the spec's scenario (1 page, 3 raw
records, 2 distinct) the duplicated record is emitted twice and the final
`total_records` is 3, not 2. -/
theorem adapterDedup_counterexample :
    (runAdapter envDoctolibDup).2.1.count dupRec = 2 ∧
      (runScrapingSession envDoctolibDup).1
        = { success := true, totalRecords := 3, pagesScraped := 1, errors := 0 } ∧
      (runScrapingSession envDoctolibDup).1.totalRecords ≠ 2 := by
  decide

/-- Claim C7 (amended): the doctolib adapter emits every extracted record
whose name is truthy, without deduplicating (name, address) pairs — the
spec's scenario ends `completed` with `pages_scraped = 1` and
`total_records = 3`, the duplicated record persisted twice. -/
theorem adapterNoDedup_scenario :
    (runAdapter envDoctolibDup).2.1 = [dupRec, dupRec, thirdRec] ∧
      statusSeq (runScrapingSession envDoctolibDup).2
        = [Status.running, Status.completed] ∧
      (runScrapingSession envDoctolibDup).2.getLast?
        = some (Event.statusUpdate Status.completed (some 1) (some 3)) ∧
      savedRecords (runScrapingSession envDoctolibDup).2
        = [dupRec, dupRec, thirdRec] := by
  decide

/-- Claim C10 (confirmed): "arztauskunft.de" and "deutsche-aerzte.info"
pass the request validator, yet any `run_scraping_session` call whose
target is outside the adapter table returns a failure result immediately
with an empty effect trace — no record-store write, no status update, so
the session row stays `pending`. -/
theorem unsupportedTargetNoWrites (env : SessionEnv)
    (h : env.targetSite ∉ scraperSites) :
    validateTargetSite "arztauskunft.de" = true ∧
      validateTargetSite "deutsche-aerzte.info" = true ∧
      (runScrapingSession env).1.success = false ∧
      (runScrapingSession env).2 = [] := by
  have htr := runScrapingSession_unsupported env h
  exact ⟨by decide, by decide, by rw [htr], by rw [htr]⟩

/-- Witness for `unsupportedTargetNoWrites` at the concrete
`envUnsupported` environment. -/
theorem unsupportedTargetNoWrites_witness :
    (runScrapingSession envUnsupported).1.success = false ∧
      (runScrapingSession envUnsupported).2 = [] :=
  ⟨(unsupportedTargetNoWrites envUnsupported (by decide)).2.2.1,
   (unsupportedTargetNoWrites envUnsupported (by decide)).2.2.2⟩

end Verisnap

namespace Verisnap

variable {Time : Type} [LinearOrderedCommRing Time]

/-! ## Proxy-rotation lemmas and claims C8 / C9 -/

lemma getD_mem {α : Type} (l : List α) (i : ℕ) (d : α) (h : i < l.length) :
    l.getD i d ∈ l := by
  rw [List.getD_eq_getElem l d h]
  exact List.getElem_mem h

lemma getNextProxy_noRefresh (interval : Time) (results : ℕ → HealthResult)
    (s : RotState Time) (now : Time)
    (hfresh : ¬ now - s.lastHealthCheck > interval)
    (h : ProxyEntry) (tl : List ProxyEntry)
    (hH : healthyProxies s.proxies = h :: tl) :
    getNextProxy interval results s now =
      (some ((h :: tl).getD (rotateIndex (h :: tl).length s.currentIndex) h),
        { s with currentIndex := rotateIndex (h :: tl).length s.currentIndex + 1 }) := by
  have hmem : h ∈ s.proxies := by
    have : h ∈ healthyProxies s.proxies := by rw [hH]; simp
    exact List.mem_of_mem_filter this
  have hne : s.proxies.isEmpty = false := by
    cases hp : s.proxies with
    | nil => rw [hp] at hmem; cases hmem
    | cons a b => rfl
  simp only [getNextProxy, hne, Bool.false_eq_true, if_false, if_neg hfresh,
    hH, rotateIndex]

lemma rotate_take_succ {α : Type} (l : List α) (d : α) (i m : ℕ)
    (hi : i < l.length) (hm : m + 1 ≤ l.length) :
    (l.rotate i).take (m + 1)
      = l.getD i d :: ((l.rotate (rotateIndex l.length (i + 1))).take m) := by
  rw [List.rotate_eq_drop_append_take hi.le, List.drop_eq_getElem_cons hi,
    List.getD_eq_getElem l d hi, List.cons_append, List.take_succ_cons]
  congr 1
  by_cases h1 : l.length ≤ i + 1
  · have hieq : i + 1 = l.length := le_antisymm hi h1
    rw [rotateIndex, if_pos h1, List.rotate_zero, hieq, List.drop_length,
      List.nil_append, List.take_take]
    have hmin : min m i = m := by omega
    rw [hmin]
  · rw [rotateIndex, if_neg h1]
    rw [List.rotate_eq_drop_append_take (by omega : i + 1 ≤ l.length)]
    rw [List.take_append_eq_append_take, List.take_append_eq_append_take]
    congr 1
    rw [List.take_take, List.take_take]
    have hdl : (l.drop (i + 1)).length = l.length - (i + 1) := List.length_drop ..
    have hj : min (m - (l.drop (i + 1)).length) i
        = min (m - (l.drop (i + 1)).length) (i + 1) := by
      rw [hdl]; omega
    rw [hj]

lemma acquireSeq_rotate (interval : Time) (results : ℕ → HealthResult) :
    ∀ (times : List Time) (s : RotState Time),
      (∀ t ∈ times, ¬ t - s.lastHealthCheck > interval) →
      times.length ≤ (healthyProxies s.proxies).length →
      (acquireSeq interval results s times).1
        = (((healthyProxies s.proxies).rotate
            (rotateIndex (healthyProxies s.proxies).length s.currentIndex)).take
            times.length).map some := by
  intro times
  induction times with
  | nil => intro s _ _; simp [acquireSeq]
  | cons t ts ih =>
      intro s hfresh hlen
      obtain ⟨h, tl, hH⟩ : ∃ h tl, healthyProxies s.proxies = h :: tl := by
        cases hHp : healthyProxies s.proxies with
        | nil => rw [hHp] at hlen; simp at hlen
        | cons a b => exact ⟨a, b, rfl⟩
      have hstep := getNextProxy_noRefresh interval results s t
        (hfresh t (by simp)) h tl hH
      have hlen' : ts.length + 1 ≤ (h :: tl).length := by
        rw [← hH]; simpa using hlen
      have hidx : rotateIndex (h :: tl).length s.currentIndex < (h :: tl).length := by
        rw [rotateIndex]
        split
        · simp
        · omega
      have hihs := ih { s with
          currentIndex := rotateIndex (h :: tl).length s.currentIndex + 1 }
        (fun u hu => hfresh u (by simp [hu]))
        (by simpa [hH] using Nat.le_of_succ_le hlen')
      rw [acquireSeq, hstep]
      simp only [List.length_cons] at hihs ⊢
      rw [hihs, hH]
      rw [rotate_take_succ (h :: tl) h
        (rotateIndex (h :: tl).length s.currentIndex) ts.length hidx
        (by simpa using hlen'), List.map_cons]
      simp only [List.length_cons]

/-- Claim C9 (confirmed): with a fixed healthy set and no intervening
refresh, `N` consecutive `get_next_proxy` calls return the rotation of the
healthy list starting at the (reset-normalised) cursor — each healthy
proxy exactly once, in stable order; and whenever the cursor has fallen
off the end of the healthy list, the call resets it to zero, returning the
head and leaving the cursor at one. -/
theorem roundRobinRotation (interval : Time) (results : ℕ → HealthResult)
    (s : RotState Time) (times : List Time)
    (hfresh : ∀ t ∈ times, ¬ t - s.lastHealthCheck > interval)
    (hlen : times.length = (healthyProxies s.proxies).length) :
    (acquireSeq interval results s times).1
        = ((healthyProxies s.proxies).rotate
            (rotateIndex (healthyProxies s.proxies).length s.currentIndex)).map some ∧
      ((healthyProxies s.proxies).rotate
          (rotateIndex (healthyProxies s.proxies).length s.currentIndex)).Perm
        (healthyProxies s.proxies) ∧
      ∀ (s' : RotState Time) (now : Time) (h : ProxyEntry) (tl : List ProxyEntry),
        ¬ now - s'.lastHealthCheck > interval →
        healthyProxies s'.proxies = h :: tl →
        (h :: tl).length ≤ s'.currentIndex →
        (getNextProxy interval results s' now).1 = some h ∧
          (getNextProxy interval results s' now).2.currentIndex = 1 := by
  refine ⟨?_, (healthyProxies s.proxies).rotate_perm _, ?_⟩
  · rw [acquireSeq_rotate interval results times s hfresh hlen.le, hlen]
    congr 1
    exact List.take_of_length_le (by rw [List.length_rotate])
  · intro s' now h tl hfr hH hc
    have hstep := getNextProxy_noRefresh interval results s' now hfr h tl hH
    have h0 : rotateIndex (h :: tl).length s'.currentIndex = 0 := by
      rw [rotateIndex, if_pos hc]
    rw [hstep, h0]
    exact ⟨rfl, rfl⟩

/-- Witness for `roundRobinRotation`: two healthy proxies, two fresh calls,
visiting A then B. -/
theorem roundRobinRotation_witness :
    (acquireSeq 300 healthResultsAllOk rotTwo [(1 : ℤ), 2]).1
        = ((healthyProxies rotTwo.proxies).rotate
            (rotateIndex (healthyProxies rotTwo.proxies).length
              rotTwo.currentIndex)).map some ∧
      (acquireSeq 300 healthResultsAllOk rotTwo [(1 : ℤ), 2]).1
        = [some proxyA, some proxyB] :=
  ⟨(roundRobinRotation 300 healthResultsAllOk rotTwo [(1 : ℤ), 2]
      (by decide) (by decide)).1,
   by decide⟩

/-- Claim C8 (counterexample): with one known-unhealthy proxy that the
refresh reports healthy, a stale `get_next_proxy` call returns the
refreshed entry — an identity that is not in the last-known healthy set
(which is empty) — so the call does not serve from the pre-refresh set. -/
theorem staleAcquire_counterexample :
    healthyProxies rotStale.proxies = [] ∧
      ((301 : ℤ) - rotStale.lastHealthCheck > 300) ∧
      (getNextProxy 300 healthResultsAllOk rotStale 301).1
        = some { config := staleProxy.config, isHealthy := some true,
                 responseTime := some none, lastError := some none } ∧
      (∀ p, (getNextProxy 300 healthResultsAllOk rotStale 301).1 = some p →
        p ∉ healthyProxies rotStale.proxies) := by
  decide

/-- Claim C8 (amended): when more than the health-check interval has
elapsed, `get_next_proxy` synchronously awaits a full
`check_all_proxies_health` — the state's `last_health_check` becomes the
current time — and then serves from the refreshed healthy set: any
returned identity belongs to the refreshed healthy set, and the call
returns none when that set is empty. -/
theorem staleAcquireServesRefreshed (interval : Time) (results : ℕ → HealthResult)
    (s : RotState Time) (now : Time)
    (hstale : now - s.lastHealthCheck > interval) (hne : s.proxies ≠ []) :
    (getNextProxy interval results s now).2.lastHealthCheck = now ∧
      (∀ p, (getNextProxy interval results s now).1 = some p →
        p ∈ healthyProxies (applyHealthResults results 0 s.proxies)) ∧
      (healthyProxies (applyHealthResults results 0 s.proxies) = [] →
        (getNextProxy interval results s now).1 = none) := by
  have hne' : s.proxies.isEmpty = false := by
    cases hp : s.proxies with
    | nil => exact absurd hp hne
    | cons a b => rfl
  have hchk : checkAllProxiesHealth results now s =
      { proxies := applyHealthResults results 0 s.proxies,
        currentIndex := s.currentIndex, lastHealthCheck := now } := by
    rw [checkAllProxiesHealth, if_neg]
    simp [hne']
  cases hH : healthyProxies (applyHealthResults results 0 s.proxies) with
  | nil =>
      have hrun : getNextProxy interval results s now
          = (none, checkAllProxiesHealth results now s) := by
        simp only [getNextProxy, hne', Bool.false_eq_true, if_false,
          if_pos hstale, hchk, hH]
      rw [hrun, hchk]
      exact ⟨rfl, fun p hp => by simp at hp, fun _ => rfl⟩
  | cons h tl =>
      have hidx : (if (h :: tl).length ≤ s.currentIndex then 0
          else s.currentIndex) < (h :: tl).length := by
        split
        · simp
        · omega
      have hrun : getNextProxy interval results s now
          = (some ((h :: tl).getD (if (h :: tl).length ≤ s.currentIndex then 0
                else s.currentIndex) h),
              { checkAllProxiesHealth results now s with
                currentIndex := (if (h :: tl).length ≤ s.currentIndex then 0
                  else s.currentIndex) + 1 }) := by
        simp only [getNextProxy, hne', Bool.false_eq_true, if_false,
          if_pos hstale, hchk, hH]
      rw [hrun, hchk]
      refine ⟨rfl, ?_, ?_⟩
      · intro p hp
        rw [Option.some_inj] at hp
        rw [← hp]
        exact getD_mem _ _ _ hidx
      · intro hcon
        cases hcon

/-- Witness for `staleAcquireServesRefreshed` at the concrete stale
one-proxy pool. -/
theorem staleAcquireServesRefreshed_witness :
    (getNextProxy 300 healthResultsAllOk rotStale 301).2.lastHealthCheck = 301 ∧
      (healthyProxies (applyHealthResults healthResultsAllOk 0 rotStale.proxies) = [] →
        (getNextProxy 300 healthResultsAllOk rotStale 301).1 = none) :=
  ⟨(staleAcquireServesRefreshed 300 healthResultsAllOk rotStale 301
      (by decide) (by decide)).1,
   (staleAcquireServesRefreshed 300 healthResultsAllOk rotStale 301
      (by decide) (by decide)).2.2⟩

end Verisnap
